import Mathlib

/-!
  Verification of the package lifecycle manager (PlakarKorp/pkg).

  Shallow embedding of the Go sources:
  * `package.go`  — `Package`, `parseName`, `Validate`, `Filename`
  * `flat.go`     — `FlatBackend.List`, `Load`, `unload`, `Unload`
  * `manager.go`  — `Manager.preadd`, `Add`, `fetch`

  Machine strings are Lean `String`s; byte-level Go operations are modelled
  on `String.data` (the file names involved are ASCII, where Go's
  byte-wise scans and Lean's char-wise scans agree).  The external
  semantic-version primitives (`semver.IsValid`, `semver.Compare`) are
  parameters of every definition that uses them, as are the results of
  external effects (archive extraction, hooks, HTTP round trips).  The
  file-system state touched by the flat backend is the pair of name sets
  of `pkgdir` and `cachedir`, with `os.Remove` / `os.RemoveAll` given
  their documented Go semantics.
-/

namespace Pkg

/-- Errors produced by the Go code, one constructor per distinct source. -/
inductive GoErr where
  | badPackageName (offender : String)
  | notExist
  | alreadyInstalled
  | invalidOptions
  | authorizationRequired
  | httpStatus (code : Nat) (reason : String)
  | ioError (msg : String)
  | hookError (msg : String)
  | linkError
  | other (msg : String)
  deriving DecidableEq, Repr

/-- Whether `errors.Is(e, fs.ErrNotExist)` holds for a non-nil error. -/
def GoErr.isNotExist : GoErr → Bool
  | .notExist => true
  | _ => false

/-- Whether `errors.Is(e, fs.ErrNotExist)` holds, where `e` may be nil. -/
def optIsNotExist : Option GoErr → Bool
  | none => false
  | some e => e.isNotExist

/-- The `Package` struct of package.go, fields in source order. -/
structure Package where
  Name : String
  Version : String
  Architecture : String
  OperatingSystem : String
  deriving DecidableEq, Repr

/-- The zero value `var pkg Package`. -/
def Package.zero : Package := ⟨"", "", "", ""⟩

/-- `isNameChar` of package.go. -/
def isNameChar (c : Char) : Bool :=
  ('A' ≤ c && c ≤ 'Z') || ('a' ≤ c && c ≤ 'z') || ('0' ≤ c && c ≤ '9') || c == '-'

/-- `isOsArchChar` of package.go. -/
def isOsArchChar (c : Char) : Bool :=
  ('A' ≤ c && c ≤ 'Z') || ('a' ≤ c && c ≤ 'z') || ('0' ≤ c && c ≤ '9')

/-- Go `strings.Split` for a one-character separator. -/
def splitChar (sep : Char) : List Char → List (List Char)
  | [] => [[]]
  | c :: rest =>
    let r := splitChar sep rest
    if c = sep then [] :: r
    else
      match r with
      | [] => [[c]]
      | h :: t => (c :: h) :: t

/-- Go `strings.CutSuffix`: `some` of the trimmed string when the suffix
is present, `none` otherwise. -/
def cutSuffix (s suffix : String) : Option String :=
  if suffix.data.isSuffixOf s.data then
    some (String.mk (s.data.take (s.data.length - suffix.data.length)))
  else none

/-- Go `strings.TrimSuffix`. -/
def trimSuffix (s suffix : String) : String :=
  match cutSuffix s suffix with
  | some b => b
  | none => s

/-- `Package.Validate` of package.go.  `semverIsValid` stands for the
external `semver.IsValid` primitive. -/
def Package.Validate (semverIsValid : String → Bool) (pkg : Package) : Option GoErr :=
  if pkg.Name = "" then some (.badPackageName "")
  else if ¬ pkg.Name.data.all isNameChar then some (.badPackageName pkg.Name)
  else if ¬ semverIsValid pkg.Version then some (.badPackageName pkg.Version)
  else if ¬ pkg.OperatingSystem.data.all isOsArchChar then
    some (.badPackageName pkg.OperatingSystem)
  else if ¬ pkg.Architecture.data.all isOsArchChar then
    some (.badPackageName pkg.Architecture)
  else none

/-- `Package.parseName` of package.go.  The Go method mutates its receiver
and returns an error; the model returns the updated receiver together
with the error.  On a missing suffix or a wrong field count the receiver
is left untouched; otherwise all four fields are assigned before
validation runs. -/
def Package.parseName (semverIsValid : String → Bool) (pkg : Package) (name : String) :
    Package × Option GoErr :=
  match cutSuffix name ".ptar" with
  | none => (pkg, some (.badPackageName name))
  | some baseName =>
    let atoms := splitChar '_' baseName.data
    if atoms.length ≠ 4 then (pkg, some (.badPackageName name))
    else
      let pkg : Package :=
        { pkg with
          Name := String.mk atoms[0]!
          Version := String.mk atoms[1]!
          OperatingSystem := String.mk atoms[2]!
          Architecture := String.mk atoms[3]! }
      (pkg, pkg.Validate semverIsValid)

/-- `Package.Filename` of package.go, faithful to the source: the format
arguments are `Name, Version, OperatingSystem, OperatingSystem` — the
`Architecture` field is never serialized. -/
def Package.Filename (p : Package) : String :=
  p.Name ++ "_" ++ p.Version ++ "_" ++ p.OperatingSystem ++ "_" ++ p.OperatingSystem ++ ".ptar"

/-- Whether a directory entry is hidden (Go `strings.HasPrefix(name, ".")`). -/
def startsWithDot (s : String) : Bool :=
  match s.data with
  | [] => false
  | c :: _ => c = '.'

/-- One element yielded by `FlatBackend.List`: either a parsed package with
a nil error, or a nil package with an error. -/
inductive ListElem where
  | ok (pkg : Package)
  | err (e : GoErr)
  deriving DecidableEq, Repr

/-- The elements `FlatBackend.List` yields for one directory entry,
translated from the loop body in flat.go: hidden entries are skipped; a
failed `parseName` yields an error element and then — the source has no
`continue` there — control falls through to the name filter and the
success yield with the partially assigned receiver. -/
def listEntry (semverIsValid : String → Bool) (nameFilter : String) (entry : String) :
    List ListElem :=
  if startsWithDot entry then []
  else
    let pr := Package.parseName semverIsValid Package.zero entry
    let head : List ListElem :=
      match pr.2 with
      | some e => [ListElem.err e]
      | none => []
    if nameFilter ≠ "" ∧ pr.1.Name ≠ nameFilter then head
    else head ++ [ListElem.ok pr.1]

/-- The full element sequence produced by `FlatBackend.List` over a
directory listing (in directory order), assuming the consumer never stops
early.  The `ReadDir(16)` batching of the source does not change which
elements are yielded, only how the directory is read. -/
def FlatBackend.ListYields (semverIsValid : String → Bool) (nameFilter : String)
    (dirents : List String) : List ListElem :=
  (dirents.map (listEntry semverIsValid nameFilter)).flatten

/-- A concrete stand-in for `semver.IsValid` used in closed evaluations. -/
def sampleIsValid : String → Bool := fun v => v = "v1.0.0"

lemma empty_data : ("" : String).data = [] := rfl

/-- File-system state owned by the flat backend: the entry names of
`pkgdir` (package artifacts, including hidden staging files) and the
extraction-directory names of `cachedir`.  Paths are relative to their
directory, matching how flat.go joins base names onto `f.pkgdir` and
`f.cachedir`. -/
structure FS where
  pkgdirFiles : List String
  cachedirDirs : List String
  deriving DecidableEq, Repr

/-- `FlatBackend.unload` of flat.go over the file-system state, with
`os.Remove` and `os.RemoveAll` given their documented semantics:
`os.Remove` fails with a not-exist error when the file is absent, and
`os.RemoveAll` returns nil when the directory is absent (in this pure
model a present directory is always removed successfully).  The error
combination mirrors the source: the result of `os.RemoveAll(extracted)`
replaces the result of `os.Remove(pkgfile)` only when the latter is nil
and the former is not a not-exist error. -/
def FlatBackend.unload (fs : FS) (pkgfile extracted : String) : FS × Option GoErr :=
  let removeErr : Option GoErr :=
    if pkgfile ∈ fs.pkgdirFiles then none else some .notExist
  let fs1 : FS := { fs with pkgdirFiles := fs.pkgdirFiles.erase pkgfile }
  if extracted ≠ "" then
    let removeAllErr : Option GoErr := none
    let fs2 : FS := { fs1 with cachedirDirs := fs1.cachedirDirs.erase extracted }
    (fs2, if removeErr = none ∧ optIsNotExist removeAllErr = false then removeAllErr
          else removeErr)
  else (fs1, removeErr)

/-- The pure error-combination logic of `FlatBackend.unload`, with the two
removal results injected, so statements can range over arbitrary removal
errors (the file-system model above can only produce not-exist ones). -/
def FlatBackend.unloadErrCombine (removeErr removeAllErr : Option GoErr)
    (extracted : String) : Option GoErr :=
  if extracted ≠ "" then
    if removeErr = none ∧ optIsNotExist removeAllErr = false then removeAllErr
    else removeErr
  else removeErr

/-- `FlatBackend.Unload` of flat.go. -/
def FlatBackend.Unload (fs : FS) (pkg : Package) : FS × Option GoErr :=
  FlatBackend.unload fs (Package.Filename pkg) (trimSuffix (Package.Filename pkg) ".ptar")

/-- Results of the external effects performed by one `FlatBackend.Load`
call: the `io.Copy` into the temp file, the archive extraction, the
manifest load and validation, and the pre-load hook (with its presence
flag).  Each is the error the corresponding step would report. -/
structure LoadEnv where
  copyErr : Option GoErr
  extractErr : Option GoErr
  manifestErr : Option GoErr
  hookPresent : Bool
  hookErr : Option GoErr
  deriving DecidableEq, Repr

/-- `FlatBackend.Load` of flat.go over the file-system state.  `tmpName`
is the fresh hidden name chosen by `os.CreateTemp`.  Step order follows
the source: create the temp file; copy (a failure returns with the temp
file left in place); extract into `cachedir` (on failure the extract
helper's own temp directory is discarded and the destination directory is
not created, then `f.unload` rolls back); load and validate the manifest;
run the pre-load hook if present; hard-link the temp file to the
canonical name (failing when the canonical name exists); the post-load
hook has no file-system effect.  Rollback calls discard `unload`'s
error, as the source does. -/
def FlatBackend.Load (pkg : Package) (tmpName : String) (env : LoadEnv) (fs : FS) :
    FS × Option GoErr :=
  let fs1 : FS := { fs with pkgdirFiles := tmpName :: fs.pkgdirFiles }
  match env.copyErr with
  | some e => (fs1, some e)
  | none =>
    let extracted := trimSuffix (Package.Filename pkg) ".ptar"
    match env.extractErr with
    | some e => ((FlatBackend.unload fs1 tmpName extracted).1, some e)
    | none =>
      let fs2 : FS := { fs1 with cachedirDirs := extracted :: fs1.cachedirDirs }
      match env.manifestErr with
      | some e => ((FlatBackend.unload fs2 tmpName extracted).1, some e)
      | none =>
        match (if env.hookPresent then env.hookErr else none) with
        | some e => ((FlatBackend.unload fs2 tmpName extracted).1, some e)
        | none =>
          let canonical := Package.Filename pkg
          if canonical ∈ fs2.pkgdirFiles then
            ((FlatBackend.unload fs2 tmpName extracted).1, some .linkError)
          else
            ({ fs2 with pkgdirFiles := canonical :: fs2.pkgdirFiles }, none)

lemma data_append (a b : String) : (a ++ b).data = a.data ++ b.data := by
  cases a; cases b; rfl

lemma underscore_data : "_".data = ['_'] := rfl

lemma ptar_data : ".ptar".data = ['.', 'p', 't', 'a', 'r'] := rfl

lemma filename_data (p : Package) :
    (Package.Filename p).data =
      (p.Name.data ++ '_' :: p.Version.data ++ '_' :: p.OperatingSystem.data ++
        '_' :: p.OperatingSystem.data) ++ ['.', 'p', 't', 'a', 'r'] := by
  simp [Package.Filename, data_append, underscore_data, ptar_data]

lemma cutSuffix_of_data_eq (s : String) (x : List Char) (suffix : String)
    (h : s.data = x ++ suffix.data) :
    cutSuffix s suffix = some (String.mk x) := by
  unfold cutSuffix
  rw [if_pos]
  · rw [h]
    have hl : (x ++ suffix.data).length - suffix.data.length = x.length := by simp
    rw [hl, List.take_left]
  · rw [List.isSuffixOf_iff_suffix, h]
    exact ⟨x, rfl⟩

lemma trimSuffix_filename_ne_empty (p : Package) :
    trimSuffix (Package.Filename p) ".ptar" ≠ "" := by
  have h := cutSuffix_of_data_eq (Package.Filename p)
    (p.Name.data ++ '_' :: p.Version.data ++ '_' :: p.OperatingSystem.data ++
      '_' :: p.OperatingSystem.data) ".ptar" (by rw [filename_data, ptar_data])
  unfold trimSuffix
  rw [h]
  intro hc
  have hd := congrArg String.data hc
  simp at hd

/-- The `AddOptions` struct of manager.go. -/
structure AddOptions where
  Version : String := ""
  Upgrade : Bool := false
  Downgrade : Bool := false
  Replace : Bool := false
  AllowMultipleVersions : Bool := false
  ImplicitFetch : Bool := false
  deriving DecidableEq, Repr

/-- `Manager.preadd` of manager.go, iterating over the elements yielded by
`store.List(name)`.  `compare` stands for the external `semver.Compare`
primitive and `unloadRes` for the result of `store.Unload` on each
package.  The model returns the packages unloaded (in order) together
with the returned error. -/
def Manager.preadd (compare : String → String → Int) (unloadRes : Package → Option GoErr)
    (version : String) (opts : AddOptions) : List ListElem → List Package × Option GoErr
  | [] => ([], none)
  | .err e :: _ => ([], some e)
  | .ok pkg :: rest =>
    if opts.AllowMultipleVersions then
      if pkg.Version = version then ([], some .alreadyInstalled)
      else Manager.preadd compare unloadRes version opts rest
    else if ¬ opts.Replace ∧ ¬ opts.Upgrade ∧ ¬ opts.Downgrade then
      ([], some .alreadyInstalled)
    else if opts.Replace then
      match unloadRes pkg with
      | some e => ([], some e)
      | none =>
        let r := Manager.preadd compare unloadRes version opts rest
        (pkg :: r.1, r.2)
    else
      let cmp := compare version pkg.Version
      if cmp ≥ 0 ∧ ¬ opts.Downgrade then ([], some .alreadyInstalled)
      else if cmp ≤ 0 ∧ ¬ opts.Upgrade then ([], some .alreadyInstalled)
      else
        match unloadRes pkg with
        | some e => ([], some e)
        | none =>
          let r := Manager.preadd compare unloadRes version opts rest
          (pkg :: r.1, r.2)

/-- Go `filepath.Base` for slash-separated paths. -/
def filepathBase (path : String) : String :=
  if path = "" then "."
  else
    let l := path.data.reverse.dropWhile (· = '/')
    if l = [] then "/"
    else String.mk (l.takeWhile (· ≠ '/')).reverse

/-- The `Recipe` struct. -/
structure Recipe where
  Name : String
  Version : String
  Repository : String
  deriving DecidableEq, Repr

/-- Results of the external effects a `Manager.Add` call can perform:
the semver primitives, the store listing per name, the result of each
`store.Unload`, the recipe fetch, the artifact fetch (its error before
`store.Load` runs), `os.Open` on a local target, the result of
`store.Load`, and the runtime platform strings. -/
structure AddEnv where
  semverIsValid : String → Bool
  compare : String → String → Int
  listElems : String → List ListElem
  unloadRes : Package → Option GoErr
  recipeRes : Except GoErr Recipe
  fetchBinErr : Option GoErr
  openErr : Option GoErr
  loadRes : Package → Option GoErr
  goos : String
  goarch : String

/-- Observable outcome of a `Manager.Add` call: which installed packages
the store unloaded, which package (if any) was handed to `store.Load`,
and the returned error. -/
structure AddResult where
  evicted : List Package
  staged : Option Package
  err : Option GoErr
  deriving DecidableEq, Repr

/-- `Manager.fetchbinary` of manager.go: builds the target package from
the runtime platform, fetches the artifact, and on success hands the body
to `store.Load`. -/
def Manager.fetchbinary (env : AddEnv) (name version : String) :
    Option Package × Option GoErr :=
  let pkg : Package :=
    { Name := name, Version := version, Architecture := env.goarch,
      OperatingSystem := env.goos }
  match env.fetchBinErr with
  | some e => (none, some e)
  | none => (some pkg, env.loadRes pkg)

/-- `Manager.Add` of manager.go.  The three option-validation checks come
first, in source order; then either the implicit-fetch path (name and
version from the explicit option or the fetched recipe, `preadd`, then
`fetchbinary`) or the local-artifact path (`parseName` on the base name,
`preadd`, `os.Open`, then `store.Load`). -/
def Manager.Add (env : AddEnv) (target : String) (opts : AddOptions) : AddResult :=
  if opts.Upgrade ∧ opts.Downgrade then ⟨[], none, some .invalidOptions⟩
  else if opts.Replace ∧ (opts.Upgrade ∨ opts.Downgrade) then ⟨[], none, some .invalidOptions⟩
  else if opts.AllowMultipleVersions ∧ (opts.Upgrade ∨ opts.Downgrade ∨ opts.Replace) then
    ⟨[], none, some .invalidOptions⟩
  else
    let base := filepathBase target
    if opts.ImplicitFetch ∧ ¬ (".ptar".data.isSuffixOf base.data) then
      let nv : Except GoErr (String × String) :=
        if opts.Version ≠ "" then .ok (base, opts.Version)
        else
          match env.recipeRes with
          | .error e => .error e
          | .ok r => .ok (r.Name, r.Version)
      match nv with
      | .error e => ⟨[], none, some e⟩
      | .ok (name, version) =>
        let pre := Manager.preadd env.compare env.unloadRes version opts (env.listElems name)
        match pre.2 with
        | some e => ⟨pre.1, none, some e⟩
        | none =>
          let fb := Manager.fetchbinary env name version
          ⟨pre.1, fb.1, fb.2⟩
    else
      let pr := Package.parseName env.semverIsValid Package.zero base
      match pr.2 with
      | some e => ⟨[], none, some e⟩
      | none =>
        let pkg := pr.1
        let pre := Manager.preadd env.compare env.unloadRes pkg.Version opts
          (env.listElems pkg.Name)
        match pre.2 with
        | some e => ⟨pre.1, none, some e⟩
        | none =>
          match env.openErr with
          | some e => ⟨pre.1, none, some e⟩
          | none => ⟨pre.1, some pkg, env.loadRes pkg⟩

/-- An outbound HTTP request, reduced to the headers the code reads or
writes: the user agent and the Authorization header (empty string when
the header is unset, as `req.Header.Get` reports). -/
structure Request where
  userAgent : String
  authorization : String
  deriving DecidableEq, Repr

/-- An HTTP response, reduced to what `Manager.fetch` inspects: the
status code and the status line (code plus reason phrase). -/
structure HttpResponse where
  statusCode : Nat
  status : String
  deriving DecidableEq, Repr

/-- External collaborators of `Manager.fetch`: whether a request hook is
configured, the hook itself (which may rewrite the request or fail), and
`http.DefaultClient.Do`. -/
structure FetchEnv where
  hookPresent : Bool
  hook : Request → Except GoErr Request
  doResult : Request → Except GoErr HttpResponse

/-- `Manager.fetch` of manager.go.  The first component records whether
`http.DefaultClient.Do` was invoked (whether the request was sent).  The
request starts with the user agent set and no Authorization header; when
`reqauth` holds and a hook is configured the hook runs first; then, when
`reqauth` holds and the Authorization header is still empty, the call
fails with the authorization-required error before sending; a non-200
response is turned into an error carrying the status code and status
line. -/
def Manager.fetch (env : FetchEnv) (useragent : String) (reqauth : Bool) :
    Bool × Except GoErr HttpResponse :=
  let req0 : Request := { userAgent := useragent, authorization := "" }
  let hooked : Except GoErr Request :=
    if reqauth ∧ env.hookPresent then env.hook req0 else .ok req0
  match hooked with
  | .error e => (false, .error e)
  | .ok req =>
    if reqauth ∧ req.authorization = "" then (false, .error .authorizationRequired)
    else
      match env.doResult req with
      | .error e => (true, .error e)
      | .ok resp =>
        if resp.statusCode ≠ 200 then
          (true, .error (.httpStatus resp.statusCode resp.status))
        else (true, .ok resp)

lemma parseName_roundtrip_concrete (sv : String → Bool) :
    Package.parseName sv Package.zero "a_v1.0.0__.ptar" =
      ((⟨"a", "v1.0.0", "", ""⟩ : Package),
        Package.Validate sv ⟨"a", "v1.0.0", "", ""⟩) := rfl

/-- C1: the identity `{Name s3, Version v1.0.0, Architecture amd64,
OperatingSystem openbsd}` passes validation, yet `Package.Filename`
serializes `OperatingSystem` into both the third and the fourth field, so
the round trip through `parseName` parses cleanly but returns
`Architecture = "openbsd"`, not the original `"amd64"`: the claimed
inverse property `parse(serialize(i)) = i` fails on the code. -/
theorem filename_drops_architecture :
    Package.Validate sampleIsValid ⟨"s3", "v1.0.0", "amd64", "openbsd"⟩ = none ∧
    Package.Filename ⟨"s3", "v1.0.0", "amd64", "openbsd"⟩ =
      "s3_v1.0.0_openbsd_openbsd.ptar" ∧
    (Package.parseName sampleIsValid Package.zero
      (Package.Filename ⟨"s3", "v1.0.0", "amd64", "openbsd"⟩)).2 = none ∧
    (Package.parseName sampleIsValid Package.zero
      (Package.Filename ⟨"s3", "v1.0.0", "amd64", "openbsd"⟩)).1 ≠
      ⟨"s3", "v1.0.0", "amd64", "openbsd"⟩ ∧
    (Package.parseName sampleIsValid Package.zero
      (Package.Filename ⟨"s3", "v1.0.0", "amd64", "openbsd"⟩)).1.Architecture ≠
      ("amd64" : String) := by
  decide

/-- C2: a directory with one well-formed and one malformed entry makes
`FlatBackend.List` yield three elements, not two: the loop body has no
`continue` after yielding the parse error, so the malformed entry also
produces a spurious success element carrying the zero-value receiver. -/
theorem list_yields_spurious_element :
    FlatBackend.ListYields sampleIsValid "" ["a_v1.0.0_linux_amd64.ptar", "bad.txt"] =
      [ListElem.ok ⟨"a", "v1.0.0", "amd64", "linux"⟩,
       ListElem.err (.badPackageName "bad.txt"),
       ListElem.ok Package.zero] ∧
    (FlatBackend.ListYields sampleIsValid ""
      ["a_v1.0.0_linux_amd64.ptar", "bad.txt"]).length ≠ 2 := by
  decide

/-- C3 counterexample: a fully successful `FlatBackend.Load` (all external
steps succeed) returns nil, yet the hidden temp file is still present in
`pkgdir` when it returns — the success path never removes it, refuting
the claim that it is removed on every exit path. -/
theorem load_success_retains_temp_cex :
    (FlatBackend.Load ⟨"a", "v1.0.0", "amd64", "linux"⟩ ".a-123456"
      ⟨none, none, none, true, none⟩ ⟨[], []⟩).2 = none ∧
    ".a-123456" ∈ (FlatBackend.Load ⟨"a", "v1.0.0", "amd64", "linux"⟩ ".a-123456"
      ⟨none, none, none, true, none⟩ ⟨[], []⟩).1.pkgdirFiles := by
  decide

lemma unload_pkgdirFiles (fs : FS) (pkgfile extracted : String) :
    ((FlatBackend.unload fs pkgfile extracted).1).pkgdirFiles =
      fs.pkgdirFiles.erase pkgfile := by
  unfold FlatBackend.unload
  by_cases h : extracted ≠ "" <;> simp [h]

/-- C3 amended: on a successful return the hidden temp file written in
step 1 remains in `pkgdir` (the canonical name is created as an
additional hard link to it); the temp file is removed only on the
failure exit paths after the copy step (extraction, manifest, hook or
link failure trigger the rollback that removes it). -/
theorem load_temp_file_lifecycle (pkg : Package) (tmpName : String) (env : LoadEnv)
    (fs : FS) (hfresh : tmpName ∉ fs.pkgdirFiles) :
    ((FlatBackend.Load pkg tmpName env fs).2 = none →
      tmpName ∈ (FlatBackend.Load pkg tmpName env fs).1.pkgdirFiles) ∧
    (env.copyErr = none → (FlatBackend.Load pkg tmpName env fs).2 ≠ none →
      tmpName ∉ (FlatBackend.Load pkg tmpName env fs).1.pkgdirFiles) := by
  obtain ⟨ce, ee, me, hp, he⟩ := env
  cases ce with
  | some e => simp [FlatBackend.Load]
  | none =>
    cases ee with
    | some e =>
      simp [FlatBackend.Load, unload_pkgdirFiles, List.erase_cons_head, hfresh]
    | none =>
      cases me with
      | some e =>
        simp [FlatBackend.Load, unload_pkgdirFiles, List.erase_cons_head, hfresh]
      | none =>
        cases hhook : (if hp then he else none) with
        | some e =>
          simp [FlatBackend.Load, hhook, unload_pkgdirFiles, List.erase_cons_head, hfresh]
        | none =>
          by_cases hlink : Package.Filename pkg ∈ tmpName :: fs.pkgdirFiles <;>
            simp [FlatBackend.Load, hhook, hlink, unload_pkgdirFiles,
              List.erase_cons_head, hfresh]

/-- C3 witness: a concrete instantiation of the amended temp-file
lifecycle, on a fresh temp name over the empty state. -/
theorem load_temp_file_lifecycle_witness :
    ".a-1" ∈ (FlatBackend.Load ⟨"a", "v1.0.0", "amd64", "linux"⟩ ".a-1"
      ⟨none, none, none, false, none⟩ ⟨[], []⟩).1.pkgdirFiles ∧
    ".a-1" ∉ (FlatBackend.Load ⟨"a", "v1.0.0", "amd64", "linux"⟩ ".a-1"
      ⟨none, some (.ioError "boom"), none, false, none⟩ ⟨[], []⟩).1.pkgdirFiles :=
  ⟨(load_temp_file_lifecycle ⟨"a", "v1.0.0", "amd64", "linux"⟩ ".a-1"
      ⟨none, none, none, false, none⟩ ⟨[], []⟩ (by decide)).1 (by decide),
   (load_temp_file_lifecycle ⟨"a", "v1.0.0", "amd64", "linux"⟩ ".a-1"
      ⟨none, some (.ioError "boom"), none, false, none⟩ ⟨[], []⟩ (by decide)).2
      rfl (by decide)⟩

/-- C4 counterexample: evicting an identity whose canonical artifact file
is already absent returns the not-exist error — `os.Remove`'s result is
propagated unfiltered, refuting the claim that an absent artifact is not
reported as an error. -/
theorem unload_missing_artifact_errors_cex :
    (FlatBackend.Unload ⟨[], ["a_v1.0.0_linux_linux"]⟩
      ⟨"a", "v1.0.0", "amd64", "linux"⟩).2 = some GoErr.notExist := by
  decide

/-- C4 amended: removing a nonexistent extraction directory is not an
error, and the not-exist filter applies to the extraction-directory
removal: its error replaces the result only when artifact removal
succeeded and the error is not a not-exist one, while any error from
removing the canonical artifact file — including not-exist when the file
is already absent — is always propagated. -/
theorem unload_error_propagation (re rae : Option GoErr) (ext : String) (hext : ext ≠ "")
    (fs : FS) (pkgfile extdir : String) :
    (re ≠ none → FlatBackend.unloadErrCombine re rae ext = re) ∧
    (re = none → optIsNotExist rae = true → FlatBackend.unloadErrCombine re rae ext = none) ∧
    (re = none → optIsNotExist rae = false → FlatBackend.unloadErrCombine re rae ext = rae) ∧
    (extdir ∉ fs.cachedirDirs → pkgfile ∈ fs.pkgdirFiles →
      (FlatBackend.unload fs pkgfile extdir).2 = none) ∧
    (pkgfile ∉ fs.pkgdirFiles →
      (FlatBackend.unload fs pkgfile extdir).2 = some GoErr.notExist) := by
  refine ⟨?_, ?_, ?_, ?_, ?_⟩
  · intro hre
    unfold FlatBackend.unloadErrCombine
    rw [if_pos hext, if_neg]
    simp [hre]
  · intro hre hne
    unfold FlatBackend.unloadErrCombine
    rw [if_pos hext, if_neg] <;> simp [hre, hne]
  · intro hre hne
    unfold FlatBackend.unloadErrCombine
    rw [if_pos hext, if_pos ⟨hre, hne⟩]
  · intro _ hmem
    unfold FlatBackend.unload
    by_cases hd : extdir ≠ "" <;> simp [hd, hmem, optIsNotExist]
  · intro hmem
    unfold FlatBackend.unload
    by_cases hd : extdir ≠ "" <;> simp [hd, hmem, optIsNotExist]

/-- C4 witness: concrete instantiations of the amended eviction
behaviour — a non-not-exist extraction error is propagated when artifact
removal succeeded, a missing extraction directory is tolerated, and a
missing artifact file yields the not-exist error. -/
theorem unload_error_propagation_witness :
    FlatBackend.unloadErrCombine none (some (GoErr.ioError "disk")) "a_v1_l_l" =
      some (GoErr.ioError "disk") ∧
    (FlatBackend.unload ⟨["a.ptar"], []⟩ "a.ptar" "a").2 = none ∧
    (FlatBackend.unload ⟨[], []⟩ "a.ptar" "a").2 = some GoErr.notExist :=
  ⟨(unload_error_propagation none (some (GoErr.ioError "disk")) "a_v1_l_l" (by decide)
      ⟨["a.ptar"], []⟩ "a.ptar" "a").2.2.1 rfl (by decide),
   (unload_error_propagation none (some (GoErr.ioError "disk")) "a_v1_l_l" (by decide)
      ⟨["a.ptar"], []⟩ "a.ptar" "a").2.2.2.1 (by decide) (by decide),
   (unload_error_propagation none (some (GoErr.ioError "disk")) "a_v1_l_l" (by decide)
      ⟨[], []⟩ "a.ptar" "a").2.2.2.2 (by decide)⟩

/-- C5: when the copy, extraction and manifest validation succeed but the
pre-load hook fails, `FlatBackend.Load` returns the hook's error and the
file-system state (`pkgdir` and `cachedir`) is exactly as before the
call: the temp file and the extraction directory are rolled back and no
canonical artifact was created. -/
theorem load_hook_failure_restores_state (pkg : Package) (tmpName : String) (env : LoadEnv)
    (fs : FS) (e : GoErr) (hcopy : env.copyErr = none) (hext : env.extractErr = none)
    (hman : env.manifestErr = none) (hhook : env.hookPresent = true)
    (herr : env.hookErr = some e) :
    FlatBackend.Load pkg tmpName env fs = (fs, some e) := by
  simp [FlatBackend.Load, FlatBackend.unload, hcopy, hext, hman, hhook, herr,
    trimSuffix_filename_ne_empty pkg, List.erase_cons_head]

/-- C5 witness: the hook-failure rollback at a concrete package, temp
name and starting state. -/
theorem load_hook_failure_restores_state_witness :
    FlatBackend.Load ⟨"a", "v1.0.0", "amd64", "linux"⟩ ".a-2"
      ⟨none, none, none, true, some (.hookError "veto")⟩
      ⟨["b_v1.0.0_linux_linux.ptar"], ["b_v1.0.0_linux_linux"]⟩ =
      (⟨["b_v1.0.0_linux_linux.ptar"], ["b_v1.0.0_linux_linux"]⟩, some (.hookError "veto")) :=
  load_hook_failure_restores_state ⟨"a", "v1.0.0", "amd64", "linux"⟩ ".a-2"
    ⟨none, none, none, true, some (.hookError "veto")⟩
    ⟨["b_v1.0.0_linux_linux.ptar"], ["b_v1.0.0_linux_linux"]⟩
    (.hookError "veto") rfl rfl rfl rfl rfl

/-- C6: with `allowMultipleVersions` and `replace` unset and at least one
of `upgrade`/`downgrade` set, `Manager.preadd` on an installed entry
computes `cmp = compare(target, e.version)` and rejects with the
already-installed error when `cmp ≥ 0` and `downgrade` is unset, rejects
when `cmp ≤ 0` and `upgrade` is unset, and otherwise unloads the entry
and continues with the remaining entries. -/
theorem preadd_compare_branch (compare : String → String → Int)
    (unloadRes : Package → Option GoErr) (version : String) (opts : AddOptions)
    (pkg : Package) (rest : List ListElem)
    (hamv : opts.AllowMultipleVersions = false) (hrep : opts.Replace = false)
    (hud : opts.Upgrade = true ∨ opts.Downgrade = true) :
    (compare version pkg.Version ≥ 0 ∧ opts.Downgrade = false →
      Manager.preadd compare unloadRes version opts (.ok pkg :: rest) =
        ([], some .alreadyInstalled)) ∧
    (compare version pkg.Version ≤ 0 ∧ opts.Upgrade = false →
      Manager.preadd compare unloadRes version opts (.ok pkg :: rest) =
        ([], some .alreadyInstalled)) ∧
    (¬ (compare version pkg.Version ≥ 0 ∧ opts.Downgrade = false) →
      ¬ (compare version pkg.Version ≤ 0 ∧ opts.Upgrade = false) →
      unloadRes pkg = none →
      Manager.preadd compare unloadRes version opts (.ok pkg :: rest) =
        (pkg :: (Manager.preadd compare unloadRes version opts rest).1,
          (Manager.preadd compare unloadRes version opts rest).2)) := by
  refine ⟨?_, ?_, ?_⟩
  · rintro ⟨h1, h2⟩
    rcases hud with hu | hd
    · simp [Manager.preadd, hamv, hrep, hu, h1, h2]
    · rw [h2] at hd; exact absurd hd (by simp)
  · rintro ⟨h1, h2⟩
    rcases hud with hu | hd
    · rw [h2] at hu; exact absurd hu (by simp)
    · simp [Manager.preadd, hamv, hrep, hd, h1, h2]
  · intro h1 h2 hun
    have hguard : ¬(¬ opts.Replace ∧ ¬ opts.Upgrade ∧ ¬ opts.Downgrade) := by
      rcases hud with hu | hd
      · simp [hu]
      · simp [hd]
    have h1' : ¬(compare version pkg.Version ≥ 0 ∧ ¬ opts.Downgrade) := by
      simpa using h1
    have h2' : ¬(compare version pkg.Version ≤ 0 ∧ ¬ opts.Upgrade) := by
      simpa using h2
    simp [Manager.preadd, hamv, hrep, hguard, h1', h2', hun]
    have hg2 : ¬(opts.Upgrade = false ∧ opts.Downgrade = false) := by
      rcases hud with hu | hd
      · simp [hu]
      · simp [hd]
    rw [if_neg hg2, if_neg (by simpa using h1), if_neg (by simpa using h2)]

/-- A concrete stand-in for `semver.Compare` on the versions used in the
closed evaluations: v1.0.0 is below every other version. -/
def sampleCompare : String → String → Int :=
  fun a b => if a = b then 0 else if a = "v1.0.0" then -1 else 1

/-- C6 witness: with `upgrade` set, a target above the installed version
is rejected as already installed (cmp ≥ 0 with `downgrade` unset), and a
target below the installed version evicts the entry and proceeds. -/
theorem preadd_compare_branch_witness :
    Manager.preadd sampleCompare (fun _ => none) "v2.0.0" { Upgrade := true }
      [ListElem.ok ⟨"foo", "v1.0.0", "amd64", "linux"⟩] =
      ([], some GoErr.alreadyInstalled) ∧
    Manager.preadd sampleCompare (fun _ => none) "v1.0.0" { Upgrade := true }
      [ListElem.ok ⟨"foo", "v2.0.0", "amd64", "linux"⟩] =
      ([⟨"foo", "v2.0.0", "amd64", "linux"⟩], none) :=
  ⟨(preadd_compare_branch sampleCompare (fun _ => none) "v2.0.0" { Upgrade := true }
      ⟨"foo", "v1.0.0", "amd64", "linux"⟩ [] rfl rfl (Or.inl rfl)).1 (by decide),
   ((preadd_compare_branch sampleCompare (fun _ => none) "v1.0.0" { Upgrade := true }
      ⟨"foo", "v2.0.0", "amd64", "linux"⟩ [] rfl rfl (Or.inl rfl)).2.2
      (by decide) (by decide) rfl).trans (by decide)⟩

/-- C7: with `allowMultipleVersions` set, `Manager.preadd` over an
error-free listing of installed entries rejects with the
already-installed error exactly when some entry carries the target
version, and when no entry does, nothing is unloaded and the call
returns nil. -/
theorem preadd_allow_multiple (compare : String → String → Int)
    (unloadRes : Package → Option GoErr) (version : String) (opts : AddOptions)
    (pkgs : List Package) (hamv : opts.AllowMultipleVersions = true) :
    ((Manager.preadd compare unloadRes version opts (pkgs.map .ok)).2 =
        some GoErr.alreadyInstalled ↔ ∃ p ∈ pkgs, p.Version = version) ∧
    ((∀ p ∈ pkgs, p.Version ≠ version) →
      Manager.preadd compare unloadRes version opts (pkgs.map .ok) = ([], none)) := by
  induction pkgs with
  | nil => simp [Manager.preadd]
  | cons p ps ih =>
    obtain ⟨ih1, ih2⟩ := ih
    by_cases hv : p.Version = version
    · constructor
      · simp [Manager.preadd, hamv, hv]
      · intro hall
        exact absurd hv (hall p (List.mem_cons_self p ps))
    · constructor
      · simpa [Manager.preadd, hamv, hv] using ih1
      · intro hall
        have htail := ih2 fun q hq => hall q (List.mem_cons_of_mem p hq)
        simpa [Manager.preadd, hamv, hv] using htail

/-- C7 witness: an exact-version duplicate is rejected in multi-version
mode, and a different version proceeds with no eviction. -/
theorem preadd_allow_multiple_witness :
    (Manager.preadd sampleCompare (fun _ => none) "v1.0.0"
      { AllowMultipleVersions := true }
      ([⟨"foo", "v1.0.0", "amd64", "linux"⟩].map ListElem.ok)).2 =
      some GoErr.alreadyInstalled ∧
    Manager.preadd sampleCompare (fun _ => none) "v2.0.0"
      { AllowMultipleVersions := true }
      ([⟨"foo", "v1.0.0", "amd64", "linux"⟩].map ListElem.ok) = ([], none) :=
  ⟨(preadd_allow_multiple sampleCompare (fun _ => none) "v1.0.0"
      { AllowMultipleVersions := true } [⟨"foo", "v1.0.0", "amd64", "linux"⟩] rfl).1.mpr
      ⟨⟨"foo", "v1.0.0", "amd64", "linux"⟩, by decide, rfl⟩,
   (preadd_allow_multiple sampleCompare (fun _ => none) "v2.0.0"
      { AllowMultipleVersions := true } [⟨"foo", "v1.0.0", "amd64", "linux"⟩] rfl).2
      (by decide)⟩

/-- C8: a contradictory flag combination — `upgrade` with `downgrade`,
`replace` with either, or `allowMultipleVersions` with any of the
three — makes `Manager.Add` return the invalid-options error with no
package unloaded and nothing handed to `store.Load`, whatever the target
and environment. -/
theorem add_invalid_options (env : AddEnv) (target : String) (opts : AddOptions)
    (h : (opts.Upgrade ∧ opts.Downgrade) ∨
      (opts.Replace ∧ (opts.Upgrade ∨ opts.Downgrade)) ∨
      (opts.AllowMultipleVersions ∧ (opts.Upgrade ∨ opts.Downgrade ∨ opts.Replace))) :
    Manager.Add env target opts = ⟨[], none, some GoErr.invalidOptions⟩ := by
  by_cases h1 : opts.Upgrade ∧ opts.Downgrade
  · simp [Manager.Add, h1]
  · by_cases h2 : opts.Replace ∧ (opts.Upgrade ∨ opts.Downgrade)
    · simp [Manager.Add, h1, h2]
    · have h3 : opts.AllowMultipleVersions ∧
          (opts.Upgrade ∨ opts.Downgrade ∨ opts.Replace) := by tauto
      simp [Manager.Add, h1, h2, h3]

/-- A concrete environment for closed evaluations of `Manager.Add`. -/
def sampleAddEnv : AddEnv :=
  { semverIsValid := sampleIsValid, compare := sampleCompare,
    listElems := fun _ => [], unloadRes := fun _ => none,
    recipeRes := .ok ⟨"foo", "v1.0.0", ""⟩, fetchBinErr := none,
    openErr := none, loadRes := fun _ => none, goos := "linux", goarch := "amd64" }

/-- C8 witness: `upgrade` and `downgrade` set together yield the
invalid-options error with no state change. -/
theorem add_invalid_options_witness :
    Manager.Add sampleAddEnv "foo" { Upgrade := true, Downgrade := true } =
      ⟨[], none, some GoErr.invalidOptions⟩ :=
  add_invalid_options sampleAddEnv "foo" { Upgrade := true, Downgrade := true }
    (Or.inl ⟨rfl, rfl⟩)

/-- C9: with `reqauth` set, `Manager.fetch` fails with the
authorization-required error before sending when no hook is configured,
or when the configured hook leaves the Authorization header empty; and
on either path a response with a status code other than 200 turns into
an error carrying the status code and the status line. -/
theorem fetch_auth_and_status (env : FetchEnv) (ua : String) :
    (env.hookPresent = false →
      Manager.fetch env ua true = (false, .error .authorizationRequired)) ∧
    (∀ r, env.hookPresent = true → env.hook ⟨ua, ""⟩ = .ok r → r.authorization = "" →
      Manager.fetch env ua true = (false, .error .authorizationRequired)) ∧
    (∀ resp, env.doResult ⟨ua, ""⟩ = .ok resp → resp.statusCode ≠ 200 →
      Manager.fetch env ua false = (true, .error (.httpStatus resp.statusCode resp.status))) ∧
    (∀ r resp, env.hookPresent = true → env.hook ⟨ua, ""⟩ = .ok r → r.authorization ≠ "" →
      env.doResult r = .ok resp → resp.statusCode ≠ 200 →
      Manager.fetch env ua true = (true, .error (.httpStatus resp.statusCode resp.status))) := by
  refine ⟨?_, ?_, ?_, ?_⟩
  · intro hp
    simp [Manager.fetch, hp]
  · intro r hp hr ha
    simp [Manager.fetch, hp, hr, ha]
  · intro resp hdo hcode
    simp [Manager.fetch, hdo, hcode]
  · intro r resp hp hr ha hdo hcode
    simp [Manager.fetch, hp, hr, ha, hdo, hcode]

/-- A concrete environment for closed evaluations of `Manager.fetch`:
no hook configured, every request answered with a 404. -/
def sampleFetchEnv : FetchEnv :=
  { hookPresent := false, hook := fun r => .ok r,
    doResult := fun _ => .ok ⟨404, "404 Not Found"⟩ }

/-- C9 witness: an authorized fetch without a hook fails before sending,
and an unauthorized fetch receiving a 404 fails with the status. -/
theorem fetch_auth_and_status_witness :
    Manager.fetch sampleFetchEnv "pkg/v0.0.1 (linux/amd64)" true =
      (false, .error .authorizationRequired) ∧
    Manager.fetch sampleFetchEnv "pkg/v0.0.1 (linux/amd64)" false =
      (true, .error (.httpStatus 404 "404 Not Found")) :=
  ⟨(fetch_auth_and_status sampleFetchEnv "pkg/v0.0.1 (linux/amd64)").1 rfl,
   (fetch_auth_and_status sampleFetchEnv "pkg/v0.0.1 (linux/amd64)").2.2.1
      ⟨404, "404 Not Found"⟩ rfl (by decide)⟩

/-- C10: `Package.Validate` accepts an identity whose operating-system
and architecture fields are empty — only the name is checked for
non-emptiness and the character-set scans are vacuous on empty strings —
and accordingly `parseName` accepts a filename of the shape
`name_version__.ptar`. -/
theorem validate_accepts_empty_os_arch (semverIsValid : String → Bool)
    (name version : String) (hname : name ≠ "")
    (hchars : name.data.all isNameChar = true) (hver : semverIsValid version = true) :
    Package.Validate semverIsValid ⟨name, version, "", ""⟩ = none ∧
    (semverIsValid "v1.0.0" = true →
      Package.parseName semverIsValid Package.zero "a_v1.0.0__.ptar" =
        (⟨"a", "v1.0.0", "", ""⟩, none)) := by
  constructor
  · simp [Package.Validate, hname, hchars, hver, empty_data]
  · intro hv
    rw [parseName_roundtrip_concrete]
    have h1 : ("a" : String) ≠ "" := by decide
    have h2 : ("a" : String).data.all isNameChar = true := by decide
    have h3 : ("" : String).data.all isOsArchChar = true := by decide
    simp [Package.Validate, hv, h1, h2, h3]

/-- C10 witness: the empty-field acceptance at a concrete identity and
filename. -/
theorem validate_accepts_empty_os_arch_witness :
    Package.Validate sampleIsValid ⟨"a", "v1.0.0", "", ""⟩ = none ∧
    Package.parseName sampleIsValid Package.zero "a_v1.0.0__.ptar" =
      (⟨"a", "v1.0.0", "", ""⟩, none) :=
  ⟨(validate_accepts_empty_os_arch sampleIsValid "a" "v1.0.0" (by decide) (by decide)
      (by decide)).1,
   (validate_accepts_empty_os_arch sampleIsValid "a" "v1.0.0" (by decide) (by decide)
      (by decide)).2 (by decide)⟩


end Pkg
